import Mathlib

/-!
Verification development for the m3u8 segment-download scripts
(script/download_mp4_from_jpegts_based_m3u8.py and
script/dowlnload_mp4_from_jpeg_based_m3u8.py).

The pipeline is embedded shallowly: pure string manipulation is translated
directly; filesystem and network effects are modelled by explicit
environments (a slot function for files already on disk, a transport
oracle for HTTP outcomes, a run oracle for external ffmpeg invocations).
Machine integers do not occur: all sizes and counters are Nat, exit codes
are Int.
-/

namespace UtilScripts

/-! ## String utilities, modelling the Python str operations used by the
scripts.  Python strings compare by code point, which is what lexLt does
on the underlying character lists. -/

/-- Whitespace set of Python str.strip (ASCII part, which is all the
scripts ever see in a manifest line). -/
def pyIsSpace (c : Char) : Bool :=
  c == ' ' || c == '\t' || c == '\n' || c == '\r' || c == '\x0b' || c == '\x0c'

/-- Python str.strip: drop leading and trailing whitespace. -/
def pyStrip (s : String) : String :=
  ⟨((s.data.dropWhile pyIsSpace).reverse.dropWhile pyIsSpace).reverse⟩

/-- First list starts the second one (pattern first, subject second). -/
def startsWithL {α : Type} [BEq α] : List α → List α → Bool
  | [], _ => true
  | _ :: _, [] => false
  | p :: ps, c :: cs => p == c && startsWithL ps cs

/-- Python str.startswith. -/
def pyStartsWith (pat s : String) : Bool := startsWithL pat.data s.data

/-- Python str.endswith. -/
def pyEndsWith (pat s : String) : Bool :=
  startsWithL pat.data.reverse s.data.reverse

/-- Python s.lstrip of the slash character. -/
def lstripSlash (s : String) : String := ⟨s.data.dropWhile (· == '/')⟩

/-- Python s.rstrip of the slash character. -/
def rstripSlash (s : String) : String :=
  ⟨(s.data.reverse.dropWhile (· == '/')).reverse⟩

/-- Lexicographic comparison of character lists by code point, the order
Python sorted uses on strings (and the order glob results are sorted in). -/
def lexLt : List Char → List Char → Bool
  | [], [] => false
  | [], _ :: _ => true
  | _ :: _, [] => false
  | a :: as, b :: bs =>
    if a.toNat < b.toNat then true
    else if a.toNat == b.toNat then lexLt as bs else false

/-! ## Manifest parsers -/

/-- Result of one parsing pass over the manifest lines: the segment
locations collected in line order, plus the warnings reported on the way
(the script reports a warning by printing; each printed warning line is
recorded here). -/
structure ParseOut where
  urls : List String
  warnings : List String
  deriving DecidableEq, Repr

/-- Embeds the manifest loop of download_segments_from_m3u8
(download_mp4_from_jpegts_based_m3u8.py, lines 33-46): strip each line,
skip empty lines and lines starting with the comment marker, keep
scheme-prefixed lines verbatim, resolve relative lines against the base
with exactly one slash, and with no base drop the relative line with a
warning. -/
def parseSegmentsTS : List String → Option String → ParseOut
  | [], _ => ⟨[], []⟩
  | l :: rest, b =>
    let s := pyStrip l
    let r := parseSegmentsTS rest b
    if s == "" || pyStartsWith "#" s then r
    else if pyStartsWith "http://" s || pyStartsWith "https://" s then
      ⟨s :: r.urls, r.warnings⟩
    else
      match b with
      | some bu => ⟨(rstripSlash bu ++ "/" ++ lstripSlash s) :: r.urls, r.warnings⟩
      | none => ⟨r.urls, s :: r.warnings⟩

/-- Embeds the manifest loop of download_jpeg_segments
(dowlnload_mp4_from_jpeg_based_m3u8.py, lines 29-37): only lines ending in
the jpeg extension are kept; scheme-prefixed lines are used verbatim, any
other such line is resolved by plain string concatenation of the base and
the line.  No branch of that loop prints a warning. -/
def parseSegmentsJpeg : List String → String → ParseOut
  | [], _ => ⟨[], []⟩
  | l :: rest, b =>
    let s := pyStrip l
    let r := parseSegmentsJpeg rest b
    if pyEndsWith ".jpeg" s then
      if pyStartsWith "http://" s || pyStartsWith "https://" s then
        ⟨s :: r.urls, r.warnings⟩
      else
        ⟨(b ++ s) :: r.urls, r.warnings⟩
    else r

/-! ## Segment fetcher

The download loop of download_segments_from_m3u8 (lines 50-95) and of
download_jpeg_segments (lines 40-77) is the same control flow: for each
segment index, skip the download when the destination slot file already
exists, otherwise issue one HTTP GET; any transport failure is caught,
counted, and the loop moves to the next segment.  The filesystem and the
network are modelled by an environment. -/

/-- Outcome of the single HTTP GET issued for a segment.  A status error
is raised by raise_for_status before the destination file is opened, so it
leaves no file; a transport error in the middle of the streamed body
leaves the bytes written so far in the slot. -/
inductive Transport where
  | ok (body : List Nat)
  | errStatus
  | errMid (written : List Nat)
  deriving DecidableEq, Repr

/-- Environment of one fetch run: the content of each destination slot on
disk before the run (none means the file does not exist), and the
transport outcome the network would produce for each segment index. -/
structure FetchEnv where
  slot : Nat → Option (List Nat)
  transport : Nat → Transport

/-- Per-segment outcome recorded by the loop (per-item print lines). -/
inductive SegState where
  | downloaded
  | skipped
  | failed
  deriving DecidableEq, Repr

/-- What one iteration of the loop produces for segment i: its state, the
content of the slot after the iteration, and the number of HTTP requests
the iteration issued. -/
structure SegResult where
  state : SegState
  content : Option (List Nat)
  requests : Nat
  deriving DecidableEq, Repr

/-- One iteration of the download loop, exactly the per-index branching of
lines 55-85: existing slot is skipped without any request; otherwise one
GET is issued; a status failure leaves no file, a mid-stream failure
leaves the bytes already written. -/
def fetchSeg (env : FetchEnv) (i : Nat) : SegResult :=
  match env.slot i with
  | some c => ⟨.skipped, some c, 0⟩
  | none =>
    match env.transport i with
    | .ok b => ⟨.downloaded, some b, 1⟩
    | .errStatus => ⟨.failed, none, 1⟩
    | .errMid w => ⟨.failed, some w, 1⟩

/-- Aggregate result of the download loop: the function returns True
unconditionally once the manifest was readable; the error and skip
counters are the local variables download_errors and skipped_files. -/
structure FetchOut where
  success : Bool
  results : List SegResult
  errors : Nat
  skippedCount : Nat
  deriving DecidableEq, Repr

/-- Tail of the download loop over the remaining indices, threading the
two counters just as the Python loop does. -/
def fetchGo (env : FetchEnv) : List Nat → Nat → Nat → List SegResult → FetchOut
  | [], errs, skip, acc => ⟨true, acc.reverse, errs, skip⟩
  | i :: rest, errs, skip, acc =>
    let r := fetchSeg env i
    fetchGo env rest
      (if r.state == SegState.failed then errs + 1 else errs)
      (if r.state == SegState.skipped then skip + 1 else skip)
      (r :: acc)

/-- The download loop over segment indices 0..n-1. -/
def fetchLoop (env : FetchEnv) (n : Nat) : FetchOut :=
  fetchGo env (List.range n) 0 0 []

/-- Total number of HTTP requests the run issued (observable network
traffic; the code has no such counter, each non-skipped iteration performs
exactly one requests.get call). -/
def totalRequests (f : FetchOut) : Nat :=
  (f.results.map (fun r => r.requests)).foldr (· + ·) 0

/-- Number of segments the run actually downloaded. -/
def downloadedCount (f : FetchOut) : Nat :=
  (f.results.filter (fun r => r.state == SegState.downloaded)).length

/-- Whole-function model of download_segments_from_m3u8: an unreadable
manifest aborts with False before any download (returned here as none);
otherwise the manifest is parsed and the loop runs over the parsed
references, and the function returns True regardless of per-segment
failures. -/
def download_segments_from_m3u8 (manifestReadable : Bool) (lines : List String)
    (b : Option String) (env : FetchEnv) : Option FetchOut :=
  if manifestReadable then
    some (fetchLoop env (parseSegmentsTS lines b).urls.length)
  else none

/-! ## Segment validator -/

/-- Verdict of the static checks of validate_and_fix_jpegs
(download_mp4_from_jpegts_based_m3u8.py, lines 117-181) on one file
content, in the order the code performs them: the size check runs first
and short-circuits, then the leading magic bytes, then the trailing
end-of-file marker; a file passing all three is counted valid (the final
light-validation block of lines 157-167 can only confirm validity: the
file already has at least 512 bytes, so the read of its first kilobyte
yields more than 500 bytes). -/
inductive JpegVerdict where
  | tooSmall
  | badHeader
  | noEndMarker
  | ok
  deriving DecidableEq, Repr

/-- Classification of one stored segment file by content only (bytes as
naturals below 256); the filename never enters. -/
def classify_jpeg (content : List Nat) : JpegVerdict :=
  if content.length < 512 then .tooSmall
  else if !startsWithL [0xff, 0xd8, 0xff] (content.take 4) then .badHeader
  else if !(content.drop (content.length - 2) == [0xff, 0xd9]) then .noEndMarker
  else .ok

/-- The validator pass over the files matched by the video jpeg glob, in
the sorted order glob delivers them: each file with a non-ok verdict is
removed from disk and counted, each ok file is kept and counted.  Returns
(validCount, removedCount, remaining files). -/
def validate_and_fix_jpegs :
    List (String × List Nat) → Nat × Nat × List (String × List Nat)
  | [] => (0, 0, [])
  | f :: rest =>
    let r := validate_and_fix_jpegs rest
    if classify_jpeg f.2 == JpegVerdict.ok then
      (r.1 + 1, r.2.1, f :: r.2.2)
    else
      (r.1, r.2.1 + 1, r.2.2)

/-! ## Slot filenames

The fetcher names slot i with the Python format strings segment{i:04d}.ts
(line 53 of the jpegts script) and video{i:04d}.jpeg (line 43 of the jpeg
script): the decimal digits of i, left-padded with zeros to a width of at
least four. -/

/-- Decimal digit as a character. -/
def digitChar (d : Nat) : Char := Char.ofNat (48 + d)

/-- Decimal digits of n, most significant first, with explicit fuel to
keep the recursion structural (fuel n + 1 always suffices since the
argument shrinks by a factor of ten each step). -/
def decChars : Nat → Nat → List Char
  | 0, _ => []
  | fuel + 1, n =>
    if n < 10 then [digitChar n]
    else decChars fuel (n / 10) ++ [digitChar (n % 10)]

/-- Decimal representation of n. -/
def decStr (n : Nat) : List Char := decChars (n + 1) n

/-- Python zero-fill to width w, the padding rule of the 04d format. -/
def zfill (w : Nat) (s : List Char) : List Char :=
  List.replicate (w - s.length) '0' ++ s

/-- Digits of the format string with field width four. -/
def pad4 (n : Nat) : List Char := zfill 4 (decStr n)

/-- Characters of the transport-stream slot name for index i. -/
def tsNameChars (i : Nat) : List Char :=
  "segment".data ++ pad4 i ++ ".ts".data

/-- Slot filename segment{i:04d}.ts. -/
def tsName (i : Nat) : String := ⟨tsNameChars i⟩

/-- Characters of the jpeg slot name for index i. -/
def jpegNameChars (i : Nat) : List Char :=
  "video".data ++ pad4 i ++ ".jpeg".data

/-- Slot filename video{i:04d}.jpeg. -/
def jpegName (i : Nat) : String := ⟨jpegNameChars i⟩

/-! ## Assembly engines

Each external tool invocation is modelled by an oracle from a label naming
the call site to the outcome of that invocation.  The outExists and
outSize fields describe the state of the invocation's target output file
right after the invocation, which is exactly what the engine inspects
with os.path.exists and os.path.getsize.  A timedOut outcome is the
subprocess raising, which the code catches at the strategy level, skipping
the rest of that strategy's block including its cleanup statements. -/

/-- Outcome of one external invocation. -/
inductive RunResult where
  | completed (rc : Int) (outExists : Bool) (outSize : Nat)
  | timedOut
  deriving DecidableEq, Repr

/-- The acceptance check used by every strategy except the final
maximum-tolerance one: zero exit code, output file present, and more than
1024 bytes of output. -/
def viableStrict : RunResult → Bool
  | .completed rc e sz => rc == 0 && e && decide (sz > 1024)
  | .timedOut => false

/-- The acceptance check of the final maximum-tolerance strategies, which
ignore the exit code: output present and more than 1024 bytes. -/
def viableLoose : RunResult → Bool
  | .completed _ e sz => e && decide (sz > 1024)
  | .timedOut => false

/-- Modelled from the spec: the viability predicate exactly as the spec
words it, exists(output) AND size(output) > minimal-threshold, with no
condition on the exit code.  Kept separate from viableStrict and
viableLoose so the spec's predicate can be compared against the ones the
code actually applies. -/
def specViable : RunResult → Bool
  | .completed _ e sz => e && decide (sz > 1024)
  | .timedOut => false

/-- Temporary-artifact bookkeeping: add a path to the set of files
currently present. -/
def fsAdd (a : String) (fs : List String) : List String :=
  if fs.contains a then fs else fs ++ [a]

/-- Temporary-artifact bookkeeping: remove a path. -/
def fsDel (a : String) (fs : List String) : List String :=
  fs.filter (fun x => x != a)

/-- Result of an engine run: whether a strategy was accepted, how many
strategies were entered, and which working files are still present in the
segment directory when the function returns (beyond the segments
themselves and the final output). -/
structure EngineOut where
  success : Bool
  attempts : Nat
  leftovers : List String
  deriving DecidableEq, Repr

/-- Call sites of combine_jpegs_to_mp4 in ladder order: the image2 pattern
mux, the concat-list mux, the copy-and-process test run and full run, and
the maximum-error-tolerance mux. -/
inductive JRun where
  | img2
  | concatDemux
  | copyTest
  | copyFull
  | force
  deriving DecidableEq, Repr

/-- Strategy 4 of combine_jpegs_to_mp4 (lines 516-564): one mux with
maximum error tolerance, accepted on output existence and size alone; any
exception ends the strategy, after which the function returns False. -/
def jpegS4 (fs : List String) (o : JRun → RunResult) : EngineOut :=
  match o .force with
  | .timedOut => ⟨false, 4, fs⟩
  | .completed rc e sz =>
    if viableLoose (.completed rc e sz) then ⟨true, 4, fs⟩ else ⟨false, 4, fs⟩

/-- Strategy 3 of combine_jpegs_to_mp4 (lines 400-514): copy a 100-file
prefix into a temporary directory, run a test mux into test_output.mp4,
and only on a strict-viable test recreate the copies and run the full
mux.  The temporary directory is removed after each completed run; the
test output is removed only on the full-run path, and nothing is removed
when a run raises. -/
def jpegS3 (fs : List String) (o : JRun → RunResult) : EngineOut :=
  let fs1 := fsAdd "temp_processing" fs
  match o .copyTest with
  | .timedOut => jpegS4 fs1 o
  | .completed rc e sz =>
    let fs2 := fsDel "temp_processing" (if e then fsAdd "test_output.mp4" fs1 else fs1)
    if rc == 0 && e && decide (sz > 1024) then
      let fs3 := fsAdd "temp_processing" fs2
      match o .copyFull with
      | .timedOut => jpegS4 fs3 o
      | .completed rcf ef szf =>
        let fs4 := fsDel "test_output.mp4" (fsDel "temp_processing" fs3)
        if viableStrict (.completed rcf ef szf) then ⟨true, 3, fs4⟩
        else jpegS4 fs4 o
    else jpegS4 fs2 o

/-- Strategy 2 of combine_jpegs_to_mp4 (lines 339-398): write the concat
list file_list.txt, run the concat mux, remove the list after a completed
run; a raising run skips the removal. -/
def jpegS2 (fs : List String) (o : JRun → RunResult) : EngineOut :=
  let fs1 := fsAdd "file_list.txt" fs
  match o .concatDemux with
  | .timedOut => jpegS3 fs1 o
  | .completed rc e sz =>
    let fs2 := fsDel "file_list.txt" fs1
    if viableStrict (.completed rc e sz) then ⟨true, 2, fs2⟩
    else jpegS3 fs2 o

/-- Whole-function model of combine_jpegs_to_mp4 (lines 262-572): the
availability probe of ffmpeg and the empty-glob early exits, then the
four-strategy ladder; strategy 1 creates no artifacts. -/
def combine_jpegs_to_mp4 (ffmpegOk : Bool) (nfiles : Nat)
    (o : JRun → RunResult) : EngineOut :=
  if !ffmpegOk then ⟨false, 0, []⟩
  else if nfiles == 0 then ⟨false, 0, []⟩
  else
    match o .img2 with
    | .timedOut => jpegS2 [] o
    | .completed rc e sz =>
      if viableStrict (.completed rc e sz) then ⟨true, 1, []⟩
      else jpegS2 [] o

/-- Set the presence of a tool-written output file after an invocation:
the invocation's outExists flag is the state of its target file. -/
def fsSet (a : String) (present : Bool) (fs : List String) : List String :=
  if present then fsAdd a fs else fsDel a fs

/-- Call sites of combine_mpegts_segments_to_mp4 in ladder order: the
concat-demuxer stream copy, the concat-protocol stream copy, the binary
concatenation remux, the error-recovery re-encode, the maximum-tolerance
stream copy, and the two raw-elementary-stream probes. -/
inductive MRun where
  | concatList
  | concatProto
  | binRemux
  | reencode
  | forceCopy
  | rawH264
  | rawH265
  deriving DecidableEq, Repr

/-- Result of the mpegts engine: besides acceptance, attempts and leftover
working files, the run records whether the sync-byte warning about a
possibly encrypted first segment was printed, and whether the final
diagnostic block naming the EXT-X-KEY tag was printed. -/
structure MEngineOut where
  success : Bool
  attempts : Nat
  leftovers : List String
  syncWarned : Bool
  encDiag : Bool
  deriving DecidableEq, Repr

/-- Strategy 6 of combine_mpegts_segments_to_mp4 (lines 1034-1104): a raw
h264 probe over a concatenated prefix, retried as hevc on a non-zero
exit.  The probe target test_raw.mp4 is never removed, no outcome of this
strategy returns success, and every way out of it reaches the final
diagnostic block (lines 1106-1113). -/
def mtsS6 (w : Bool) (fs : List String) (o : MRun → RunResult) : MEngineOut :=
  let fs1 := fsAdd "temp_raw.h264" fs
  match o .rawH264 with
  | .timedOut => ⟨false, 6, fs1, w, true⟩
  | .completed rc e _ =>
    let fs2 := fsSet "test_raw.mp4" e (fsDel "temp_raw.h264" fs1)
    if rc != 0 then
      let fs3 := fsAdd "temp_raw.h265" fs2
      match o .rawH265 with
      | .timedOut => ⟨false, 6, fs3, w, true⟩
      | .completed _ e2 _ =>
        ⟨false, 6, fsSet "test_raw.mp4" e2 (fsDel "temp_raw.h265" fs3), w, true⟩
    else ⟨false, 6, fs2, w, true⟩

/-- Strategy 5 of combine_mpegts_segments_to_mp4 (lines 964-1032): an
unused ffprobe call, then a maximum-tolerance stream copy driven by a
fresh concat list; acceptance ignores the exit code.  A raising run skips
the list removal. -/
def mtsS5 (w : Bool) (fs : List String) (o : MRun → RunResult) : MEngineOut :=
  let fs1 := fsAdd "segment_list.txt" fs
  match o .forceCopy with
  | .timedOut => mtsS6 w fs1 o
  | .completed rc e sz =>
    let fs2 := fsDel "segment_list.txt" fs1
    if viableLoose (.completed rc e sz) then ⟨true, 5, fs2, w, false⟩
    else mtsS6 w fs2 o

/-- Strategy 4 of combine_mpegts_segments_to_mp4 (lines 899-962): the
error-recovery re-encode over a fresh concat list, accepted strictly. -/
def mtsS4 (w : Bool) (fs : List String) (o : MRun → RunResult) : MEngineOut :=
  let fs1 := fsAdd "segment_list.txt" fs
  match o .reencode with
  | .timedOut => mtsS5 w fs1 o
  | .completed rc e sz =>
    let fs2 := fsDel "segment_list.txt" fs1
    if viableStrict (.completed rc e sz) then ⟨true, 4, fs2, w, false⟩
    else mtsS5 w fs2 o

/-- Strategy 3 of combine_mpegts_segments_to_mp4 (lines 846-897): byte
concatenation into temp_concat.ts followed by a remux, accepted
strictly.  A raising remux skips the temp file removal. -/
def mtsS3 (w : Bool) (fs : List String) (o : MRun → RunResult) : MEngineOut :=
  let fs1 := fsAdd "temp_concat.ts" fs
  match o .binRemux with
  | .timedOut => mtsS4 w fs1 o
  | .completed rc e sz =>
    let fs2 := fsDel "temp_concat.ts" fs1
    if viableStrict (.completed rc e sz) then ⟨true, 3, fs2, w, false⟩
    else mtsS4 w fs2 o

/-- Strategy 2 of combine_mpegts_segments_to_mp4 (lines 808-844): the
concat protocol stream copy; it creates no files of its own. -/
def mtsS2 (w : Bool) (fs : List String) (o : MRun → RunResult) : MEngineOut :=
  match o .concatProto with
  | .timedOut => mtsS3 w fs o
  | .completed rc e sz =>
    if viableStrict (.completed rc e sz) then ⟨true, 2, fs, w, false⟩
    else mtsS3 w fs o

/-- Strategy 1 of combine_mpegts_segments_to_mp4 (lines 757-806): the
concat demuxer stream copy over segment_list.txt, accepted strictly; a
raising run skips the list removal. -/
def mtsS1 (w : Bool) (fs : List String) (o : MRun → RunResult) : MEngineOut :=
  let fs1 := fsAdd "segment_list.txt" fs
  match o .concatList with
  | .timedOut => mtsS2 w fs1 o
  | .completed rc e sz =>
    let fs2 := fsDel "segment_list.txt" fs1
    if viableStrict (.completed rc e sz) then ⟨true, 1, fs2, w, false⟩
    else mtsS2 w fs2 o

/-- The sync-byte warning condition of lines 743-753: the warning is
printed only when none of the first four bytes of the first segment file
equals 0x47. -/
def syncWarn (hdr : Nat × Nat × Nat × Nat) : Bool :=
  hdr.1 != 71 && hdr.2.1 != 71 && hdr.2.2.1 != 71 && hdr.2.2.2 != 71

/-- Whole-function model of combine_mpegts_segments_to_mp4 (lines
713-1114): the ffmpeg availability probe and the empty-glob early exits,
the format sniff of the first segment's four header bytes, then the
six-strategy ladder. -/
def combine_mpegts_segments_to_mp4 (ffmpegOk : Bool) (nfiles : Nat)
    (hdr : Nat × Nat × Nat × Nat) (o : MRun → RunResult) : MEngineOut :=
  if !ffmpegOk then ⟨false, 0, [], false, false⟩
  else if nfiles == 0 then ⟨false, 0, [], false, false⟩
  else mtsS1 (syncWarn hdr) [] o

/-! ## Parser characterizations (helper lemmas) -/

/-- With a base URL, the jpegts manifest loop keeps exactly the stripped
lines that are neither blank nor comments, in line order, resolving
non-absolute ones against the base; it emits no warnings. -/
theorem parseTS_some_spec (lines : List String) (b : String) :
    parseSegmentsTS lines (some b) =
      ⟨((lines.map pyStrip).filter
          (fun s => !(s == "" || pyStartsWith "#" s))).map
        (fun s =>
          if pyStartsWith "http://" s || pyStartsWith "https://" s then s
          else rstripSlash b ++ "/" ++ lstripSlash s), []⟩ := by
  induction lines with
  | nil => rfl
  | cons l rest ih =>
    by_cases hA : (pyStrip l == "") = true
    · simp [parseSegmentsTS, hA, ih]
    · by_cases hB : pyStartsWith "#" (pyStrip l) = true
      · simp [parseSegmentsTS, hA, hB, ih]
      · by_cases h2 : (pyStartsWith "http://" (pyStrip l)
            || pyStartsWith "https://" (pyStrip l)) = true
        · simp [parseSegmentsTS, hA, hB, h2, ih]
          rw [if_pos (by simpa using h2)]
        · simp [parseSegmentsTS, hA, hB, h2, ih]
          rw [if_neg (by simpa using h2)]

/-- With no base, the jpegts manifest loop keeps exactly the absolute
candidate lines and warns once per relative candidate line, in line
order; blank and comment lines contribute neither entries nor warnings. -/
theorem parseTS_none_spec (lines : List String) :
    parseSegmentsTS lines none =
      ⟨(lines.map pyStrip).filter
          (fun s => !(s == "" || pyStartsWith "#" s) &&
            (pyStartsWith "http://" s || pyStartsWith "https://" s)),
        (lines.map pyStrip).filter
          (fun s => !(s == "" || pyStartsWith "#" s) &&
            !(pyStartsWith "http://" s || pyStartsWith "https://" s))⟩ := by
  induction lines with
  | nil => rfl
  | cons l rest ih =>
    by_cases hA : (pyStrip l == "") = true
    · simp [parseSegmentsTS, hA, ih]
    · by_cases hB : pyStartsWith "#" (pyStrip l) = true
      · simp [parseSegmentsTS, hA, hB, ih]
      · by_cases h2 : (pyStartsWith "http://" (pyStrip l)
            || pyStartsWith "https://" (pyStrip l)) = true
        · rcases (by simpa using h2 :
              pyStartsWith "http://" (pyStrip l) = true ∨
              pyStartsWith "https://" (pyStrip l) = true) with h3 | h3 <;>
            simp [parseSegmentsTS, hA, hB, h3, ih]
        · have h3 : pyStartsWith "http://" (pyStrip l) = false ∧
              pyStartsWith "https://" (pyStrip l) = false := by
            simpa [not_or] using h2
          simp [parseSegmentsTS, hA, hB, h3.1, h3.2, ih]

/-- The jpeg manifest loop keeps exactly the stripped lines ending in the
jpeg extension, in line order, prepending the base verbatim to
non-absolute ones, and never warns. -/
theorem parseJpeg_spec (lines : List String) (b : String) :
    parseSegmentsJpeg lines b =
      ⟨((lines.map pyStrip).filter (fun s => pyEndsWith ".jpeg" s)).map
        (fun s =>
          if pyStartsWith "http://" s || pyStartsWith "https://" s then s
          else b ++ s), []⟩ := by
  induction lines with
  | nil => rfl
  | cons l rest ih =>
    by_cases h1 : pyEndsWith ".jpeg" (pyStrip l) = true
    · by_cases h2 : (pyStartsWith "http://" (pyStrip l)
          || pyStartsWith "https://" (pyStrip l)) = true
      · simp [parseSegmentsJpeg, h1, h2, ih]
        rw [if_pos (by simpa using h2)]
      · simp [parseSegmentsJpeg, h1, h2, ih]
        rw [if_neg (by simpa using h2)]
    · simp [parseSegmentsJpeg, h1, ih]

/-- Claim C4 counterexample: on the claimed end-to-end manifest with base
https://cdn.example/clips, the parser of download_jpeg_segments resolves
the relative line to https://cdn.example/clipsseg0.jpeg, by bare
concatenation without the separating slash, so the claimed pair of
references is not what this parser produces. -/
theorem C4_counterexample :
    (parseSegmentsJpeg ["seg0.jpeg", "https://cdn.example/seg1.jpeg", "# comment", ""]
        "https://cdn.example/clips").urls
      = ["https://cdn.example/clipsseg0.jpeg", "https://cdn.example/seg1.jpeg"] ∧
    ¬ (parseSegmentsJpeg ["seg0.jpeg", "https://cdn.example/seg1.jpeg", "# comment", ""]
        "https://cdn.example/clips").urls
      = ["https://cdn.example/clips/seg0.jpeg", "https://cdn.example/seg1.jpeg"] := by
  decide

/-- Claim C4, amended: in download_segments_from_m3u8 the claim holds as
stated, including the end-to-end scenario, which yields exactly the two
claimed references in line order, with comment and blank lines dropped.
In download_jpeg_segments only lines ending in the jpeg extension count
as references, a relative reference is resolved by bare concatenation of
the base and the line (so the scenario base without a trailing slash
yields clipsseg0.jpeg), and line order is likewise preserved. -/
theorem C4_parser_order :
    parseSegmentsTS ["seg0.jpeg", "https://cdn.example/seg1.jpeg", "# comment", ""]
        (some "https://cdn.example/clips")
      = ⟨["https://cdn.example/clips/seg0.jpeg", "https://cdn.example/seg1.jpeg"], []⟩ ∧
    (∀ (lines : List String) (b : String),
      parseSegmentsTS lines (some b) =
        ⟨((lines.map pyStrip).filter
            (fun s => !(s == "" || pyStartsWith "#" s))).map
          (fun s =>
            if pyStartsWith "http://" s || pyStartsWith "https://" s then s
            else rstripSlash b ++ "/" ++ lstripSlash s), []⟩) ∧
    (∀ (lines : List String) (b : String),
      parseSegmentsJpeg lines b =
        ⟨((lines.map pyStrip).filter (fun s => pyEndsWith ".jpeg" s)).map
          (fun s =>
            if pyStartsWith "http://" s || pyStartsWith "https://" s then s
            else b ++ s), []⟩) :=
  ⟨by decide, parseTS_some_spec, parseJpeg_spec⟩

/-- Claim C5 counterexample: a relative reference line parsed with no
base (the empty base string of download_jpeg_segments) produces one
entry, the unresolved line itself, and no warning, where the claim
demands zero entries and a warning. -/
theorem C5_counterexample :
    parseSegmentsJpeg ["seg0.jpeg"] "" = ⟨["seg0.jpeg"], []⟩ ∧
    (parseSegmentsJpeg ["seg0.jpeg"] "").urls.length = 1 := by
  decide

/-- Claim C5, amended: in download_segments_from_m3u8 a relative
candidate with no base is indeed dropped with one warning per such line
and parsing continues, so manifests mixing absolute and relative lines
still parse; in download_jpeg_segments, however, a relative jpeg line
with the empty base is appended verbatim as an entry and no warning is
ever emitted. -/
theorem C5_no_base_behavior :
    (∀ lines : List String,
      parseSegmentsTS lines none =
        ⟨(lines.map pyStrip).filter
            (fun s => !(s == "" || pyStartsWith "#" s) &&
              (pyStartsWith "http://" s || pyStartsWith "https://" s)),
          (lines.map pyStrip).filter
            (fun s => !(s == "" || pyStartsWith "#" s) &&
              !(pyStartsWith "http://" s || pyStartsWith "https://" s))⟩) ∧
    (∀ lines : List String,
      (parseSegmentsJpeg lines "").urls
        = (lines.map pyStrip).filter (fun s => pyEndsWith ".jpeg" s) ∧
      (parseSegmentsJpeg lines "").warnings = []) := by
  refine ⟨parseTS_none_spec, fun lines => ?_⟩
  rw [parseJpeg_spec]
  refine ⟨?_, rfl⟩
  apply List.map_id''
  intro s
  by_cases h : (pyStartsWith "http://" s || pyStartsWith "https://" s) = true
  · rw [if_pos h]
  · rw [if_neg h]
    exact String.empty_append s

/-! ## Fetch loop characterization -/

/-- The download loop visits every listed index, records one per-segment
result each, counts failures and skips on top of the incoming counters,
and always ends in overall success. -/
theorem fetchGo_spec (env : FetchEnv) (is : List Nat) :
    ∀ (errs skip : Nat) (acc : List SegResult),
      fetchGo env is errs skip acc =
        ⟨true, acc.reverse ++ is.map (fetchSeg env),
          errs + (is.filter
            (fun i => (fetchSeg env i).state == SegState.failed)).length,
          skip + (is.filter
            (fun i => (fetchSeg env i).state == SegState.skipped)).length⟩ := by
  induction is with
  | nil => intro errs skip acc; simp [fetchGo]
  | cons i rest ih =>
    intro errs skip acc
    simp only [fetchGo, ih, List.map_cons, List.filter_cons]
    by_cases hf : ((fetchSeg env i).state == SegState.failed) = true
    · by_cases hs : ((fetchSeg env i).state == SegState.skipped) = true
      · simp [hf, hs]
        omega
      · simp [hf, hs]
        omega
    · by_cases hs : ((fetchSeg env i).state == SegState.skipped) = true
      · simp [hf, hs]
        omega
      · simp [hf, hs]

/-- The download loop over the first n indices, in closed form. -/
theorem fetchLoop_spec (env : FetchEnv) (n : Nat) :
    fetchLoop env n =
      ⟨true, (List.range n).map (fetchSeg env),
        ((List.range n).filter
          (fun i => (fetchSeg env i).state == SegState.failed)).length,
        ((List.range n).filter
          (fun i => (fetchSeg env i).state == SegState.skipped)).length⟩ := by
  have h := fetchGo_spec env (List.range n) 0 0 []
  simpa [fetchLoop] using h

/-- Sum of a constant-zero map is zero. -/
theorem foldr_add_map_zero {α : Type} (l : List α) :
    ((l.map (fun _ => (0 : Nat))).foldr (· + ·) 0) = 0 := by
  induction l with
  | nil => rfl
  | cons a rest ih => simpa using ih

/-- Claim C2 (confirmed): the download loop records a per-segment outcome
for every reference in order, a transport failure (status error or
mid-stream error on a slot not yet on disk) marks exactly that segment
Failed with one issued request, the error counter equals the number of
failed segments, the skip counter the number of skipped ones, processing
never stops early, and the function reports overall success whenever the
manifest was readable, whatever the individual outcomes were. -/
theorem C2_fetch_error_tolerance :
    ∀ (env : FetchEnv) (n : Nat),
      (fetchLoop env n).success = true ∧
      (fetchLoop env n).results = (List.range n).map (fetchSeg env) ∧
      (fetchLoop env n).errors =
        ((List.range n).filter
          (fun i => (fetchSeg env i).state == SegState.failed)).length ∧
      (fetchLoop env n).skippedCount =
        ((List.range n).filter
          (fun i => (fetchSeg env i).state == SegState.skipped)).length ∧
      (∀ (lines : List String) (b : Option String),
        (download_segments_from_m3u8 true lines b env).isSome = true) ∧
      (∀ (w : List Nat) (i : Nat),
        fetchSeg ⟨fun _ => none, fun _ => Transport.errStatus⟩ i
          = ⟨SegState.failed, none, 1⟩ ∧
        fetchSeg ⟨fun _ => none, fun _ => Transport.errMid w⟩ i
          = ⟨SegState.failed, some w, 1⟩) := by
  intro env n
  rw [fetchLoop_spec]
  refine ⟨rfl, rfl, rfl, rfl, fun lines b => rfl, fun w i => ⟨rfl, rfl⟩⟩

/-- Claim C7 (confirmed): re-running the fetch loop against a directory
in which every destination slot is already populated, with any contents
whatsoever, issues zero HTTP requests and reports all n segments skipped
and none downloaded. -/
theorem C7_rerun_noop :
    ∀ (c : Nat → List Nat) (tr : Nat → Transport) (n : Nat),
      totalRequests (fetchLoop ⟨fun i => some (c i), tr⟩ n) = 0 ∧
      (fetchLoop ⟨fun i => some (c i), tr⟩ n).skippedCount = n ∧
      downloadedCount (fetchLoop ⟨fun i => some (c i), tr⟩ n) = 0 := by
  intro c tr n
  rw [fetchLoop_spec]
  refine ⟨?_, ?_, ?_⟩
  · show (((List.range n).map (fetchSeg _)).map (fun r => r.requests)).foldr
      (· + ·) 0 = 0
    rw [List.map_map]
    exact foldr_add_map_zero (List.range n)
  · show (((List.range n).filter _)).length = n
    rw [List.filter_eq_self.mpr]
    · exact List.length_range n
    · intro i _
      rfl
  · show ((((List.range n).map (fetchSeg _)).filter _)).length = 0
    rw [List.length_eq_zero]
    rw [List.filter_eq_nil_iff]
    intro r hr
    rcases List.mem_map.mp hr with ⟨i, _, rfl⟩
    simp [fetchSeg]

/-- Claim C10 (confirmed): the skip decision of the fetch loop depends
only on the existence of the destination slot file, never on its size or
content: any pre-existing slot content p, of any length including a
partial body, is marked Skipped with zero HTTP requests and kept
unchanged; a mid-stream transport failure leaves exactly the written
partial body in the slot and marks the segment Failed; re-running over
that slot then skips it without touching it. -/
theorem C10_skip_solely_on_existence :
    ∀ (p : List Nat) (rest : Nat → Option (List Nat)) (tr : Nat → Transport)
      (i : Nat),
      fetchSeg ⟨fun j => if j == i then some p else rest j, tr⟩ i
        = ⟨SegState.skipped, some p, 0⟩ ∧
      fetchSeg ⟨fun _ => none, fun _ => Transport.errMid p⟩ i
        = ⟨SegState.failed, some p, 1⟩ ∧
      fetchSeg ⟨fun _ => some p, tr⟩ i = ⟨SegState.skipped, some p, 0⟩ := by
  intro p rest tr i
  refine ⟨?_, rfl, rfl⟩
  simp [fetchSeg]

/-! ## Validator claims -/

/-- Claim C3 (confirmed): every globbed segment file whose content is
below the 512-byte minimum, or lacks the leading jpeg magic bytes, or
lacks the trailing end-of-file marker, is classified invalid and removed
by the validator pass, whatever its filename is (the classification reads
only the content); and an undersized file is classified by the size check
alone, whose verdict tooSmall shows the magic-byte branch was never
reached. -/
theorem C3_validator_invalid_removed :
    (∀ content : List Nat,
      content.length < 512 → classify_jpeg content = JpegVerdict.tooSmall) ∧
    (∀ content : List Nat,
      (¬ classify_jpeg content = JpegVerdict.ok ↔
        (content.length < 512 ∨
          startsWithL [0xff, 0xd8, 0xff] (content.take 4) = false ∨
          ¬ content.drop (content.length - 2) = [0xff, 0xd9]))) ∧
    (∀ files : List (String × List Nat),
      validate_and_fix_jpegs files =
        ((files.filter (fun f => classify_jpeg f.2 == JpegVerdict.ok)).length,
          (files.filter
            (fun f => !(classify_jpeg f.2 == JpegVerdict.ok))).length,
          files.filter (fun f => classify_jpeg f.2 == JpegVerdict.ok))) := by
  refine ⟨?_, ?_, ?_⟩
  · intro content h
    simp [classify_jpeg, h]
  · intro content
    by_cases h1 : content.length < 512
    · simp [classify_jpeg, h1]
    · by_cases h2 : startsWithL [0xff, 0xd8, 0xff] (content.take 4) = true
      · by_cases h3 : content.drop (content.length - 2) = [0xff, 0xd9]
        · simp [classify_jpeg, h1, h2, h3]
        · simp [classify_jpeg, h1, h2, h3]
      · simp [classify_jpeg, h1, h2]
  · intro files
    induction files with
    | nil => rfl
    | cons f rest ih =>
      by_cases h : (classify_jpeg f.2 == JpegVerdict.ok) = true
      · simp [validate_and_fix_jpegs, h, ih]
      · simp [validate_and_fix_jpegs, h, ih]

set_option maxRecDepth 4000 in
/-- Witness for claim C3 at the end-to-end scenario: a 300-byte file
named video0000.jpeg is classified by the size check (verdict tooSmall)
and the validator pass removes it, keeping nothing. -/
theorem C3_validator_invalid_removed_witness :
    classify_jpeg (List.replicate 300 0) = JpegVerdict.tooSmall ∧
    validate_and_fix_jpegs [("video0000.jpeg", List.replicate 300 0)]
      = (0, 1, []) := by
  refine ⟨C3_validator_invalid_removed.1 (List.replicate 300 0) (by decide), ?_⟩
  rw [C3_validator_invalid_removed.2.2]
  decide

/-! ## Assembly engine lemmas -/

/-- Creating then removing the same working file in an empty directory
leaves it empty. -/
theorem fsDel_fsAdd_nil (a : String) : fsDel a (fsAdd a []) = [] := by
  simp [fsAdd, fsDel]

/-- Strategy 4 of the jpeg engine is the last one entered: its attempt
count is four whatever happens. -/
theorem jpegS4_attempts (fs : List String) (o : JRun → RunResult) :
    (jpegS4 fs o).attempts = 4 := by
  unfold jpegS4
  cases o JRun.force with
  | timedOut => rfl
  | completed rc e sz =>
    by_cases h : viableLoose (RunResult.completed rc e sz) = true
    · simp [h]
    · simp [h]

/-- Once strategy 3 of the jpeg engine is entered, at least three
strategies have been entered. -/
theorem jpegS3_attempts (fs : List String) (o : JRun → RunResult) :
    3 ≤ (jpegS3 fs o).attempts := by
  unfold jpegS3
  cases o JRun.copyTest with
  | timedOut =>
    dsimp only
    have h4 := jpegS4_attempts (fsAdd "temp_processing" fs) o
    omega
  | completed rc e sz =>
    dsimp only
    by_cases h : (rc == 0 && e && decide (sz > 1024)) = true
    · rw [if_pos h]
      cases o JRun.copyFull with
      | timedOut =>
        dsimp only
        exact le_trans (by omega) (le_of_eq (jpegS4_attempts _ o).symm)
      | completed rcf ef szf =>
        dsimp only
        by_cases hf : viableStrict (RunResult.completed rcf ef szf) = true
        · rw [if_pos hf]
        · rw [if_neg hf]
          exact le_trans (by omega) (le_of_eq (jpegS4_attempts _ o).symm)
    · rw [if_neg h]
      exact le_trans (by omega) (le_of_eq (jpegS4_attempts _ o).symm)

/-- Once strategy 2 of the jpeg engine is entered, at least two
strategies have been entered. -/
theorem jpegS2_attempts (fs : List String) (o : JRun → RunResult) :
    2 ≤ (jpegS2 fs o).attempts := by
  unfold jpegS2
  cases o JRun.concatDemux with
  | timedOut =>
    dsimp only
    have h3 := jpegS3_attempts (fsAdd "file_list.txt" fs) o
    omega
  | completed rc e sz =>
    dsimp only
    by_cases h : viableStrict (RunResult.completed rc e sz) = true
    · rw [if_pos h]
    · rw [if_neg h]
      exact le_trans (by omega) (jpegS3_attempts _ o)

/-- Strategy 6 of the mpegts engine never succeeds, always prints the
final encryption diagnostic, preserves the sync warning flag, and counts
as the sixth attempt. -/
theorem mtsS6_spec (w : Bool) (fs : List String) (o : MRun → RunResult) :
    (mtsS6 w fs o).success = false ∧ (mtsS6 w fs o).attempts = 6 ∧
    (mtsS6 w fs o).syncWarned = w ∧ (mtsS6 w fs o).encDiag = true := by
  unfold mtsS6
  cases o MRun.rawH264 with
  | timedOut => exact ⟨rfl, rfl, rfl, rfl⟩
  | completed rc e sz =>
    dsimp only
    by_cases h : (rc != 0) = true
    · rw [if_pos h]
      cases o MRun.rawH265 with
      | timedOut => exact ⟨rfl, rfl, rfl, rfl⟩
      | completed rc2 e2 sz2 => exact ⟨rfl, rfl, rfl, rfl⟩
    · rw [if_neg h]
      exact ⟨rfl, rfl, rfl, rfl⟩

/-- From strategy 5 of the mpegts engine onward: the sync warning flag is
preserved, the final encryption diagnostic is printed exactly when no
strategy is accepted, and at least five strategies have been entered. -/
theorem mtsS5_spec (w : Bool) (fs : List String) (o : MRun → RunResult) :
    (mtsS5 w fs o).syncWarned = w ∧
    (mtsS5 w fs o).encDiag = !(mtsS5 w fs o).success ∧
    5 ≤ (mtsS5 w fs o).attempts := by
  unfold mtsS5
  cases o MRun.forceCopy with
  | timedOut =>
    dsimp only
    rcases mtsS6_spec w (fsAdd "segment_list.txt" fs) o with ⟨h1, h2, h3, h4⟩
    exact ⟨h3, by rw [h1, h4]; rfl, by omega⟩
  | completed rc e sz =>
    dsimp only
    by_cases h : viableLoose (RunResult.completed rc e sz) = true
    · rw [if_pos h]
      exact ⟨rfl, rfl, le_refl _⟩
    · rw [if_neg h]
      rcases mtsS6_spec w _ o with ⟨h1, h2, h3, h4⟩
      exact ⟨h3, by rw [h1, h4]; rfl, by omega⟩

/-- From strategy 4 of the mpegts engine onward: same invariants, with at
least four strategies entered. -/
theorem mtsS4_spec (w : Bool) (fs : List String) (o : MRun → RunResult) :
    (mtsS4 w fs o).syncWarned = w ∧
    (mtsS4 w fs o).encDiag = !(mtsS4 w fs o).success ∧
    4 ≤ (mtsS4 w fs o).attempts := by
  unfold mtsS4
  cases o MRun.reencode with
  | timedOut =>
    dsimp only
    rcases mtsS5_spec w (fsAdd "segment_list.txt" fs) o with ⟨h1, h2, h3⟩
    exact ⟨h1, h2, by omega⟩
  | completed rc e sz =>
    dsimp only
    by_cases h : viableStrict (RunResult.completed rc e sz) = true
    · rw [if_pos h]
      exact ⟨rfl, rfl, le_refl _⟩
    · rw [if_neg h]
      rcases mtsS5_spec w _ o with ⟨h1, h2, h3⟩
      exact ⟨h1, h2, by omega⟩

/-- From strategy 3 of the mpegts engine onward: same invariants, with at
least three strategies entered. -/
theorem mtsS3_spec (w : Bool) (fs : List String) (o : MRun → RunResult) :
    (mtsS3 w fs o).syncWarned = w ∧
    (mtsS3 w fs o).encDiag = !(mtsS3 w fs o).success ∧
    3 ≤ (mtsS3 w fs o).attempts := by
  unfold mtsS3
  cases o MRun.binRemux with
  | timedOut =>
    dsimp only
    rcases mtsS4_spec w (fsAdd "temp_concat.ts" fs) o with ⟨h1, h2, h3⟩
    exact ⟨h1, h2, by omega⟩
  | completed rc e sz =>
    dsimp only
    by_cases h : viableStrict (RunResult.completed rc e sz) = true
    · rw [if_pos h]
      exact ⟨rfl, rfl, le_refl _⟩
    · rw [if_neg h]
      rcases mtsS4_spec w _ o with ⟨h1, h2, h3⟩
      exact ⟨h1, h2, by omega⟩

/-- From strategy 2 of the mpegts engine onward: same invariants, with at
least two strategies entered. -/
theorem mtsS2_spec (w : Bool) (fs : List String) (o : MRun → RunResult) :
    (mtsS2 w fs o).syncWarned = w ∧
    (mtsS2 w fs o).encDiag = !(mtsS2 w fs o).success ∧
    2 ≤ (mtsS2 w fs o).attempts := by
  unfold mtsS2
  cases o MRun.concatProto with
  | timedOut =>
    dsimp only
    rcases mtsS3_spec w fs o with ⟨h1, h2, h3⟩
    exact ⟨h1, h2, by omega⟩
  | completed rc e sz =>
    dsimp only
    by_cases h : viableStrict (RunResult.completed rc e sz) = true
    · rw [if_pos h]
      exact ⟨rfl, rfl, le_refl _⟩
    · rw [if_neg h]
      rcases mtsS3_spec w fs o with ⟨h1, h2, h3⟩
      exact ⟨h1, h2, by omega⟩

/-- The whole mpegts ladder preserves the sync warning flag, prints the
final encryption diagnostic exactly when it fails, and enters at least
one strategy. -/
theorem mtsS1_spec (w : Bool) (fs : List String) (o : MRun → RunResult) :
    (mtsS1 w fs o).syncWarned = w ∧
    (mtsS1 w fs o).encDiag = !(mtsS1 w fs o).success ∧
    1 ≤ (mtsS1 w fs o).attempts := by
  unfold mtsS1
  cases o MRun.concatList with
  | timedOut =>
    dsimp only
    rcases mtsS2_spec w (fsAdd "segment_list.txt" fs) o with ⟨h1, h2, h3⟩
    exact ⟨h1, h2, by omega⟩
  | completed rc e sz =>
    dsimp only
    by_cases h : viableStrict (RunResult.completed rc e sz) = true
    · rw [if_pos h]
      exact ⟨rfl, rfl, le_refl _⟩
    · rw [if_neg h]
      rcases mtsS2_spec w _ o with ⟨h1, h2, h3⟩
      exact ⟨h1, h2, by omega⟩
/-! ## Assembly engine claims -/

/-- Oracle refuting the spec's viability reading: the first jpeg strategy
completes with a non-zero exit code while writing an output file of 2000
bytes, and every later run produces nothing. -/
def oSpecViable : JRun → RunResult := fun r =>
  match r with
  | .img2 => .completed 1 true 2000
  | _ => .completed 1 false 0

/-- Claim C1 counterexample: an outcome of the first strategy that is
viable in the spec's sense (output exists and exceeds 1024 bytes, exit
code non-zero) does not stop the jpeg engine: it goes on to enter all
four strategies and return failure, so the claimed invocation count of
one is wrong under the spec's viability predicate. -/
theorem C1_counterexample :
    specViable (oSpecViable JRun.img2) = true ∧
    (combine_jpegs_to_mp4 true 5 oSpecViable).attempts = 4 ∧
    (combine_jpegs_to_mp4 true 5 oSpecViable).success = false := by
  refine ⟨rfl, rfl, rfl⟩

/-- Claim C1, amended: the engines try their strategies in the fixed
catalog order, but a strategy other than the final maximum-tolerance one
is accepted only when the tool also exited with code zero, on top of the
output existing and exceeding 1024 bytes.  Under that acceptance check
the claim holds: when the first strategy's outcome is accepted the engine
stops at one invocation with no working files left behind, and when the
first strategy's outcome is not accepted the engine proceeds to a second
strategy. -/
theorem C1_ladder_first_strategy :
    (∀ (o : JRun → RunResult) (m : Nat),
      (viableStrict (o JRun.img2) = true →
        combine_jpegs_to_mp4 true (m + 1) o = ⟨true, 1, []⟩) ∧
      (viableStrict (o JRun.img2) = false →
        2 ≤ (combine_jpegs_to_mp4 true (m + 1) o).attempts)) ∧
    (∀ (o : MRun → RunResult) (hdr : Nat × Nat × Nat × Nat) (m : Nat),
      (viableStrict (o MRun.concatList) = true →
        combine_mpegts_segments_to_mp4 true (m + 1) hdr o
          = ⟨true, 1, [], syncWarn hdr, false⟩) ∧
      (viableStrict (o MRun.concatList) = false →
        2 ≤ (combine_mpegts_segments_to_mp4 true (m + 1) hdr o).attempts)) := by
  constructor
  · intro o m
    constructor
    · intro h
      cases hr : o JRun.img2 with
      | timedOut => rw [hr] at h; exact absurd h (by simp [viableStrict])
      | completed rc e sz =>
        rw [hr] at h
        simp [combine_jpegs_to_mp4, hr, h]
    · intro h
      cases hr : o JRun.img2 with
      | timedOut =>
        have hb := jpegS2_attempts ([] : List String) o
        simp [combine_jpegs_to_mp4, hr]
        omega
      | completed rc e sz =>
        rw [hr] at h
        have hb := jpegS2_attempts ([] : List String) o
        simp [combine_jpegs_to_mp4, hr, h]
        omega
  · intro o hdr m
    constructor
    · intro h
      cases hr : o MRun.concatList with
      | timedOut => rw [hr] at h; exact absurd h (by simp [viableStrict])
      | completed rc e sz =>
        rw [hr] at h
        simp [combine_mpegts_segments_to_mp4, mtsS1, hr, h, fsAdd, fsDel]
    · intro h
      cases hr : o MRun.concatList with
      | timedOut =>
        have hb := (mtsS2_spec (syncWarn hdr)
          (fsAdd "segment_list.txt" []) o).2.2
        simp [combine_mpegts_segments_to_mp4, mtsS1, hr]
        omega
      | completed rc e sz =>
        rw [hr] at h
        simp [combine_mpegts_segments_to_mp4, mtsS1, hr, h]
        exact (mtsS2_spec (syncWarn hdr) [] o).2.2

/-- Witness for the amended claim C1 at concrete oracles: an accepted
first strategy stops both engines after one invocation, and a rejected
first strategy makes both engines enter a second one. -/
theorem C1_ladder_first_strategy_witness :
    combine_jpegs_to_mp4 true (2 + 1) (fun _ => RunResult.completed 0 true 4096)
      = ⟨true, 1, []⟩ ∧
    2 ≤ (combine_jpegs_to_mp4 true (2 + 1)
      (fun _ => RunResult.completed 1 false 0)).attempts ∧
    combine_mpegts_segments_to_mp4 true (2 + 1) (71, 0, 0, 0)
      (fun _ => RunResult.completed 0 true 4096)
      = ⟨true, 1, [], syncWarn (71, 0, 0, 0), false⟩ ∧
    2 ≤ (combine_mpegts_segments_to_mp4 true (2 + 1) (71, 0, 0, 0)
      (fun _ => RunResult.completed 1 false 0)).attempts := by
  refine ⟨?_, ?_, ?_, ?_⟩
  · exact (C1_ladder_first_strategy.1 (fun _ => RunResult.completed 0 true 4096) 2).1
      (by decide)
  · exact (C1_ladder_first_strategy.1 (fun _ => RunResult.completed 1 false 0) 2).2
      (by decide)
  · exact (C1_ladder_first_strategy.2 (fun _ => RunResult.completed 0 true 4096)
      (71, 0, 0, 0) 2).1 (by decide)
  · exact (C1_ladder_first_strategy.2 (fun _ => RunResult.completed 1 false 0)
      (71, 0, 0, 0) 2).2 (by decide)

/-- Oracle for the cleanup claim: strategies one to five complete without
producing output, and the raw h264 probe of strategy 6 exits zero having
written a 5000-byte test_raw.mp4. -/
def oC8 : MRun → RunResult := fun r =>
  match r with
  | .rawH264 => .completed 0 true 5000
  | _ => .completed 1 false 0

/-- Claim C8 at the failing input: when all strategies fail and the
strategy 6 probe writes its test output, the mpegts engine returns
failure while leaving test_raw.mp4, a probe artifact of a failed
strategy, behind in the segment directory — no path of the code ever
removes it. -/
theorem C8_probe_output_left_behind :
    (combine_mpegts_segments_to_mp4 true 1 (71, 0, 0, 0) oC8).success = false ∧
    (combine_mpegts_segments_to_mp4 true 1 (71, 0, 0, 0) oC8).leftovers
      = ["test_raw.mp4"] := by
  refine ⟨rfl, rfl⟩

/-- Oracle under which the first mpegts strategy is accepted at once. -/
def oFirstOk : MRun → RunResult := fun _ => .completed 0 true 4096

/-- Claim C9 counterexample: a manifest carrying an encryption-key
directive parses with no warning at all (the directive line is skipped
silently as a comment), and a run whose first assembly strategy is
accepted prints neither the sync-byte warning nor the final diagnostic
that names the EXT-X-KEY tag — so the directive was silently ignored end
to end. -/
theorem C9_counterexample :
    parseSegmentsTS ["#EXT-X-KEY:METHOD=AES-128", "https://cdn.example/s0.ts"]
        (some "https://cdn.example")
      = ⟨["https://cdn.example/s0.ts"], []⟩ ∧
    combine_mpegts_segments_to_mp4 true 1 (71, 71, 71, 71) oFirstOk
      = ⟨true, 1, [], false, false⟩ := by
  refine ⟨by decide, rfl⟩

/-- Claim C9, amended: the parser never inspects directive lines — with a
base URL it emits no warnings whatever the manifest contains, and with no
base its warnings concern only relative candidate lines, never lines
starting with the comment marker.  Encryption is surfaced by the mpegts
engine alone, and only heuristically: the sync-byte warning fires exactly
when none of the first four bytes of the first segment is 0x47, and the
diagnostic naming the EXT-X-KEY tag is printed exactly when the whole
ladder fails. -/
theorem C9_encryption_surfacing :
    (∀ (lines : List String) (b : String),
      (parseSegmentsTS lines (some b)).warnings = []) ∧
    (∀ lines : List String,
      (parseSegmentsTS lines none).warnings =
        (lines.map pyStrip).filter
          (fun s => !(s == "" || pyStartsWith "#" s) &&
            !(pyStartsWith "http://" s || pyStartsWith "https://" s))) ∧
    (∀ (m : Nat) (hdr : Nat × Nat × Nat × Nat) (o : MRun → RunResult),
      (combine_mpegts_segments_to_mp4 true (m + 1) hdr o).syncWarned
        = syncWarn hdr ∧
      (combine_mpegts_segments_to_mp4 true (m + 1) hdr o).encDiag
        = !(combine_mpegts_segments_to_mp4 true (m + 1) hdr o).success) := by
  refine ⟨?_, ?_, ?_⟩
  · intro lines b
    rw [parseTS_some_spec]
  · intro lines
    rw [parseTS_none_spec]
  · intro m hdr o
    have h1 := (mtsS1_spec (syncWarn hdr) [] o).1
    have h2 := (mtsS1_spec (syncWarn hdr) [] o).2.1
    constructor
    · simp [combine_mpegts_segments_to_mp4]
      exact h1
    · simp [combine_mpegts_segments_to_mp4]
      exact h2

/-! ## Decimal digits and lexicographic order of slot names -/

/-- The fuel argument of decChars does not matter once it exceeds the
value being printed. -/
theorem decChars_fuel (n : Nat) : ∀ f g, n < f → n < g →
    decChars f n = decChars g n := by
  induction n using Nat.strong_induction_on with
  | _ n ih =>
    intro f g hf hg
    cases f with
    | zero => omega
    | succ f1 =>
      cases g with
      | zero => omega
      | succ g1 =>
        simp only [decChars]
        by_cases h : n < 10
        · rw [if_pos h, if_pos h]
        · rw [if_neg h, if_neg h]
          have hlt : n / 10 < n := Nat.div_lt_self (by omega) (by omega)
          rw [ih (n / 10) hlt f1 g1 (by omega) (by omega)]

/-- A single digit prints as itself. -/
theorem decStr_small (n : Nat) (h : n < 10) : decStr n = [digitChar n] := by
  show decChars (n + 1) n = [digitChar n]
  simp only [decChars]
  rw [if_pos h]

/-- A number of at least two digits prints as its quotient followed by
its last digit. -/
theorem decStr_step (n : Nat) (h : 10 ≤ n) :
    decStr n = decStr (n / 10) ++ [digitChar (n % 10)] := by
  have h1 : ¬ n < 10 := by omega
  show decChars (n + 1) n = decChars (n / 10 + 1) (n / 10) ++ [digitChar (n % 10)]
  have e1 : decChars (n + 1) n = decChars n (n / 10) ++ [digitChar (n % 10)] := by
    simp only [decChars]
    rw [if_neg h1]
  rw [e1]
  have hlt : n / 10 < n := Nat.div_lt_self (by omega) (by omega)
  rw [decChars_fuel (n / 10) n (n / 10 + 1) hlt (by omega)]

/-- Four-digit numbers print as their four digits. -/
theorem decStr_len4 (n : Nat) (h1 : 1000 ≤ n) (h2 : n < 10000) :
    decStr n = [digitChar (n / 1000), digitChar (n / 100 % 10),
      digitChar (n / 10 % 10), digitChar (n % 10)] := by
  rw [decStr_step n (by omega)]
  rw [decStr_step (n / 10) (by omega)]
  rw [decStr_step (n / 10 / 10) (by omega)]
  rw [decStr_small (n / 10 / 10 / 10) (by omega)]
  have ea : n / 10 / 10 = n / 100 := by omega
  have eb : n / 10 / 10 / 10 = n / 1000 := by omega
  rw [ea] at eb
  have ec : n / 100 % 10 = n / 100 % 10 := rfl
  rw [ea, eb]
  rfl

/-- The 04d format yields exactly the four zero-padded digits for every
index below ten thousand. -/
theorem pad4_digits (n : Nat) (h : n < 10000) :
    pad4 n = [digitChar (n / 1000), digitChar (n / 100 % 10),
      digitChar (n / 10 % 10), digitChar (n % 10)] := by
  by_cases h1 : n < 10
  · have e3 : n / 1000 = 0 := by omega
    have e2 : n / 100 % 10 = 0 := by omega
    have e1 : n / 10 % 10 = 0 := by omega
    have e0 : n % 10 = n := by omega
    rw [pad4, decStr_small n h1, e3, e2, e1, e0]
    rfl
  · by_cases hb : n < 100
    · have e3 : n / 1000 = 0 := by omega
      have e2 : n / 100 % 10 = 0 := by omega
      have e1 : n / 10 % 10 = n / 10 := by omega
      rw [pad4, decStr_step n (by omega), decStr_small (n / 10) (by omega),
        e3, e2, e1]
      rfl
    · by_cases hc : n < 1000
      · have e3 : n / 1000 = 0 := by omega
        have ea : n / 10 / 10 = n / 100 := by omega
        have e2 : n / 100 % 10 = n / 100 := by omega
        rw [pad4, decStr_step n (by omega), decStr_step (n / 10) (by omega),
          decStr_small (n / 10 / 10) (by omega), ea, e3, e2]
        rfl
      · rw [pad4, decStr_len4 n (by omega) h]
        rfl

/-- Code point of a digit character. -/
theorem digitChar_toNat : ∀ d : Nat, d < 10 → (digitChar d).toNat = 48 + d := by
  decide

/-- Lexicographic comparison skips an equal head character. -/
theorem lexLt_cons_same (c : Char) (xs ys : List Char) :
    lexLt (c :: xs) (c :: ys) = lexLt xs ys := by
  simp [lexLt]

/-- Lexicographic comparison skips a shared list head. -/
theorem lexLt_append_same (p : List Char) (xs ys : List Char) :
    lexLt (p ++ xs) (p ++ ys) = lexLt xs ys := by
  induction p with
  | nil => rfl
  | cons c rest ih => rw [List.cons_append, List.cons_append, lexLt_cons_same, ih]

/-- A smaller head code point decides the comparison at once. -/
theorem lexLt_cons_lt {a b : Char} (h : a.toNat < b.toNat)
    (xs ys : List Char) : lexLt (a :: xs) (b :: ys) = true := by
  simp [lexLt, h]

/-- Between indices below ten thousand, the zero-padded digit blocks
compare lexicographically exactly as the indices compare numerically,
whatever common tail follows them. -/
theorem lexLt_pad4 (i j : Nat) (hij : i < j) (hj : j < 10000)
    (tail : List Char) :
    lexLt (pad4 i ++ tail) (pad4 j ++ tail) = true := by
  rw [pad4_digits i (by omega), pad4_digits j hj]
  show lexLt
      (digitChar (i / 1000) :: digitChar (i / 100 % 10) ::
        digitChar (i / 10 % 10) :: digitChar (i % 10) :: tail)
      (digitChar (j / 1000) :: digitChar (j / 100 % 10) ::
        digitChar (j / 10 % 10) :: digitChar (j % 10) :: tail) = true
  rcases Nat.lt_trichotomy (i / 1000) (j / 1000) with h3 | h3 | h3
  · apply lexLt_cons_lt
    rw [digitChar_toNat _ (by omega), digitChar_toNat _ (by omega)]
    omega
  · rw [h3, lexLt_cons_same]
    rcases Nat.lt_trichotomy (i / 100 % 10) (j / 100 % 10) with h2 | h2 | h2
    · apply lexLt_cons_lt
      rw [digitChar_toNat _ (by omega), digitChar_toNat _ (by omega)]
      omega
    · rw [h2, lexLt_cons_same]
      rcases Nat.lt_trichotomy (i / 10 % 10) (j / 10 % 10) with h1 | h1 | h1
      · apply lexLt_cons_lt
        rw [digitChar_toNat _ (by omega), digitChar_toNat _ (by omega)]
        omega
      · rw [h1, lexLt_cons_same]
        apply lexLt_cons_lt
        rw [digitChar_toNat _ (by omega), digitChar_toNat _ (by omega)]
        omega
      · omega
    · omega
  · omega

/-- Claim C6 counterexample: at index 10000 the 04d field is five
characters wide, and the name of segment 10000 sorts lexicographically
before the name of segment 9999, so lexical sort order of the filenames
is not segment index order for every run. -/
theorem C6_counterexample :
    tsName 9999 = "segment9999.ts" ∧
    tsName 10000 = "segment10000.ts" ∧
    lexLt (tsNameChars 10000) (tsNameChars 9999) = true := by
  refine ⟨rfl, rfl, rfl⟩

/-- Claim C6, amended: for every run of at most ten thousand segments
(all indices below 10000) the slot names carry a fixed-width four-digit
zero-padded index and lexical sort order of the filenames equals segment
index order, for both the transport-stream and the jpeg naming scheme;
beyond index 9999 the field widens and the correspondence breaks. -/
theorem C6_name_order (i j : Nat) (hij : i < j) (hj : j < 10000) :
    (pad4 i).length = 4 ∧
    lexLt (tsNameChars i) (tsNameChars j) = true ∧
    lexLt (jpegNameChars i) (jpegNameChars j) = true := by
  refine ⟨?_, ?_, ?_⟩
  · rw [pad4_digits i (by omega)]
    rfl
  · unfold tsNameChars
    rw [List.append_assoc, List.append_assoc, lexLt_append_same]
    exact lexLt_pad4 i j hij hj _
  · unfold jpegNameChars
    rw [List.append_assoc, List.append_assoc, lexLt_append_same]
    exact lexLt_pad4 i j hij hj _

/-- Witness for the amended claim C6 at indices 3 and 12. -/
theorem C6_name_order_witness :
    (pad4 3).length = 4 ∧
    lexLt (tsNameChars 3) (tsNameChars 12) = true ∧
    lexLt (jpegNameChars 3) (jpegNameChars 12) = true :=
  C6_name_order 3 12 (by decide) (by decide)

end UtilScripts
